import Mathlib

/-!
Verification of the renderable-object resource lifecycle of the `wave` engine.

The development shallowly embeds the engine's geometry generators
(`sphere`, `ring`, `square`, `cube`), the `Shape` aggregate and its
`construct` / `destroy` / `recreate_drop` / `bind_index_and_vertex_buffers`
operations.  `f32` scalars are modelled as rationals; the trigonometric
functions of the standard library are abstract parameters `co si : ℚ → ℚ`
(with `qpi` for `std::f32::consts::PI`), so every definition stays
computable and the algebraic facts needed (`co x ^ 2 + si x ^ 2 = 1`) are
explicit hypotheses.  GPU handles are natural-number ids and every device
call is recorded as an explicit event, so resource balance is a statement
about event lists.
-/

/-- Three rational components, standing for `Vector3<f32>` / `Point3<f32>`. -/
structure V3 where
  x : ℚ
  y : ℚ
  z : ℚ
deriving DecidableEq, Repr

/-- Two rational components, standing for `Vector2<f32>`. -/
structure V2 where
  x : ℚ
  y : ℚ
deriving DecidableEq, Repr

/-- Constant `WHITE` from `shapes/mod.rs`: `Vector3::new(1., 1., 1.)`. -/
def WHITE : V3 := ⟨1, 1, 1⟩

/-- Squared euclidean norm of a 3-vector. -/
def normSq (v : V3) : ℚ := v.x ^ 2 + v.y ^ 2 + v.z ^ 2

/-- Record `Vertex` (`shapes/mod.rs`): position, colour, normal, texture coordinate. -/
structure Vertex where
  pos : V3
  colour : V3
  normal : V3
  tex_coord : V2
deriving DecidableEq, Repr

/-- Record `VerticesAndIndices` (`shapes/mod.rs`): vertex list plus `u16` index list
(indices modelled as `ℕ`; all values arising here are far below `2 ^ 16`). -/
structure VerticesAndIndices where
  vertices : List Vertex
  indices : List ℕ
deriving DecidableEq, Repr

/-- Modelled from the spec: `utility::spherical_indices` (the `utility`
module is not under `src/`; only its call sites are).  Spec §4.1: "Index
triangulation connects adjacent stacks/sectors into two triangles per
quad, skipping degenerate triangles at the poles (top stack emits one
triangle per sector instead of a quad)."  For stack row `i` the row
offsets are `k1 = i*(S+1)` and `k2 = k1 + S + 1`; the first triangle of a
quad is skipped on the top stack and the second on the bottom stack. -/
def spherical_indices (sector_count stack_count : ℕ) : List ℕ :=
  (List.range stack_count).flatMap (fun i =>
    let k1 := i * (sector_count + 1)
    let k2 := k1 + sector_count + 1
    (List.range sector_count).flatMap (fun j =>
      (if i ≠ 0 then [k1 + j, k2 + j, k1 + j + 1] else []) ++
      (if i ≠ stack_count - 1 then [k1 + j + 1, k2 + j, k2 + j + 1] else [])))

/-- Record `SphereInfo` (`crates/lambda_geometry/src/l3d/sphere.rs`, and its twin in
`crates/wave_geometry`): position, radius, sector and stack counts.  The
`orientation` field plays no part in geometry generation and is omitted. -/
structure Sphere where
  position : V3
  radius : ℚ
  sector_count : ℕ
  stack_count : ℕ
deriving DecidableEq, Repr

/-- The vertex pushed for stack index `i`, sector index `j` by
`Sphere::vertices_and_indices`: stack angle `π/2 - i·(π/T)`, the xy-radius
`r·cos(stack_angle)`, position offset by the sphere's `position`, normal
`vec.mul(length)` with `length = 1/r` applied to the offset position
(the source does not recenter before scaling), texture coordinate
`(j/S, i/T)`. -/
def sphere_vertex (co si : ℚ → ℚ) (qpi : ℚ) (s : Sphere) (i j : ℕ) : Vertex :=
  let length := 1 / s.radius
  let sector_step := 2 * qpi / (s.sector_count : ℚ)
  let stack_step := qpi / (s.stack_count : ℚ)
  let stack_angle := qpi / 2 - (i : ℚ) * stack_step
  let xy := s.radius * co stack_angle
  let zc := s.radius * si stack_angle + s.position.z
  let sector_angle := (j : ℚ) * sector_step
  let xc := xy * co sector_angle + s.position.x
  let yc := xy * si sector_angle + s.position.y
  { pos := ⟨xc, yc, zc⟩
    colour := WHITE
    normal := ⟨xc * length, yc * length, zc * length⟩
    tex_coord := ⟨(j : ℚ) / (s.sector_count : ℚ), (i : ℚ) / (s.stack_count : ℚ)⟩ }

/-- Generator `Sphere::vertices_and_indices` (`crates/lambda_geometry/src/l3d/sphere.rs`
lines 39–76, identical in `crates/wave_geometry/src/l3d/sphere.rs`; the
`sphere` free function of `src/src/shapes/mod.rs` is the `position = 0`
instance): the nested `for i in 0..=stack_count { for j in 0..=sector_count }`
loops pushing `sphere_vertex`, paired with `spherical_indices`. -/
def Sphere.vertices_and_indices (co si : ℚ → ℚ) (qpi : ℚ) (s : Sphere) :
    VerticesAndIndices :=
  { vertices :=
      (List.range (s.stack_count + 1)).flatMap (fun i =>
        (List.range (s.sector_count + 1)).map (fun j => sphere_vertex co si qpi s i j))
    indices := spherical_indices s.sector_count s.stack_count }

/-- A concrete "cosine" satisfying the Pythagorean identity together with
`sinq`, used to instantiate the abstract trigonometric parameters on
concrete inputs: `cosq 0 = 1` and `cosq x = 0` elsewhere. -/
def cosq : ℚ → ℚ := fun x => if x = 0 then 1 else 0

/-- Companion of `cosq`: `sinq 0 = 0` and `sinq x = 1` elsewhere, so that
`cosq x ^ 2 + sinq x ^ 2 = 1` holds everywhere. -/
def sinq : ℚ → ℚ := fun x => if x = 0 then 0 else 1

lemma cosq_sinq_pyth (x : ℚ) : cosq x ^ 2 + sinq x ^ 2 = 1 := by
  by_cases hx : x = 0 <;> simp [cosq, sinq, hx]

lemma flatMap_range_length {α : Type} (f : ℕ → List α) (m : ℕ)
    (h : ∀ i, (f i).length = m) :
    ∀ n, ((List.range n).flatMap f).length = n * m := by
  intro n
  induction n with
  | zero => simp
  | succ k ih =>
    rw [List.range_succ, List.flatMap_append]
    simp [ih, h, Nat.succ_mul]

lemma flatMap_range_getElem {α : Type} (f : ℕ → List α) (m : ℕ)
    (h : ∀ i, (f i).length = m) :
    ∀ n i j, i < n → j < m → ((List.range n).flatMap f)[i * m + j]? = (f i)[j]? := by
  intro n
  induction n with
  | zero => intro i j hi _; omega
  | succ k ih =>
    intro i j hi hj
    rw [List.range_succ, List.flatMap_append]
    by_cases hik : i < k
    · have hb : i * m + j < ((List.range k).flatMap f).length := by
        rw [flatMap_range_length f m h k]
        calc i * m + j < i * m + m := by omega
          _ = (i + 1) * m := by ring
          _ ≤ k * m := Nat.mul_le_mul_right m (by omega)
      rw [List.getElem?_append_left hb]
      exact ih i j hik hj
    · have hik2 : i = k := by omega
      subst hik2
      rw [List.getElem?_append_right (by rw [flatMap_range_length f m h i]; omega)]
      rw [flatMap_range_length f m h i]
      simp [h, hj, Nat.add_sub_cancel_left]

/-- C6: for sector count `S ≥ 1` and stack count `T ≥ 1` the sphere
generator produces exactly `(T+1)·(S+1)` vertices; the vertex at stack
index `i`, sector index `j` carries texture coordinate `(j/S, i/T)`; every
top-stack vertex carries `(j/S, 0)` and every bottom-stack vertex
`(j/S, 1)`. -/
theorem sphere_vertex_count_and_tex_coords (co si : ℚ → ℚ) (qpi : ℚ) (s : Sphere)
    (_hS : 1 ≤ s.sector_count) (hT : 1 ≤ s.stack_count) :
    (s.vertices_and_indices co si qpi).vertices.length
        = (s.stack_count + 1) * (s.sector_count + 1) ∧
    (∀ i j, i ≤ s.stack_count → j ≤ s.sector_count →
      ((s.vertices_and_indices co si qpi).vertices[i * (s.sector_count + 1) + j]?).map
          Vertex.tex_coord
        = some ⟨(j : ℚ) / (s.sector_count : ℚ), (i : ℚ) / (s.stack_count : ℚ)⟩) ∧
    (∀ j, j ≤ s.sector_count →
      ((s.vertices_and_indices co si qpi).vertices[j]?).map Vertex.tex_coord
        = some ⟨(j : ℚ) / (s.sector_count : ℚ), 0⟩) ∧
    (∀ j, j ≤ s.sector_count →
      ((s.vertices_and_indices co si qpi).vertices[s.stack_count * (s.sector_count + 1) + j]?).map
          Vertex.tex_coord
        = some ⟨(j : ℚ) / (s.sector_count : ℚ), 1⟩) := by
  have hrow : ∀ i, ((List.range (s.sector_count + 1)).map
      (fun j => sphere_vertex co si qpi s i j)).length = s.sector_count + 1 := by
    simp
  have hmain : ∀ i j, i ≤ s.stack_count → j ≤ s.sector_count →
      ((s.vertices_and_indices co si qpi).vertices[i * (s.sector_count + 1) + j]?).map
          Vertex.tex_coord
        = some ⟨(j : ℚ) / (s.sector_count : ℚ), (i : ℚ) / (s.stack_count : ℚ)⟩ := by
    intro i j hi hj
    have hg := flatMap_range_getElem _ _ hrow (s.stack_count + 1) i j (by omega) (by omega)
    unfold Sphere.vertices_and_indices
    rw [hg, List.getElem?_map, List.getElem?_range (by omega)]
    rfl
  refine ⟨?_, hmain, ?_, ?_⟩
  · unfold Sphere.vertices_and_indices
    exact flatMap_range_length _ _ hrow (s.stack_count + 1)
  · intro j hj
    have h0 := hmain 0 j (by omega) hj
    simpa using h0
  · intro j hj
    have hTT := hmain s.stack_count j (le_refl _) hj
    have hne : (s.stack_count : ℚ) ≠ 0 := Nat.cast_ne_zero.mpr (by omega)
    rw [hTT]
    congr 2
    exact div_self hne

/-- Witness for `sphere_vertex_count_and_tex_coords` at a concrete sphere. -/
theorem sphere_vertex_count_and_tex_coords_witness :
    (Sphere.vertices_and_indices cosq sinq 2 ⟨⟨0, 0, 0⟩, 1, 1, 1⟩).vertices.length
      = (1 + 1) * (1 + 1) :=
  (sphere_vertex_count_and_tex_coords cosq sinq 2 ⟨⟨0, 0, 0⟩, 1, 1, 1⟩
    (le_refl 1) (le_refl 1)).1

/-- C5 counterexample: the claim asserts that for any center position every
vertex normal has unit length (normal = recentered position / r).  With
trigonometric functions satisfying the Pythagorean identity, radius 1 > 0,
sector and stack counts 1 ≥ 1, and center (3,0,0), the first generated
vertex has normal of squared norm 10 ≠ 1: the source scales the
non-recentered position, so unit length fails at this off-center input. -/
theorem sphere_normal_not_unit_off_center :
    (∀ x : ℚ, cosq x ^ 2 + sinq x ^ 2 = 1) ∧ (0 : ℚ) < 1 ∧
    ((Sphere.vertices_and_indices cosq sinq 2 ⟨⟨3, 0, 0⟩, 1, 1, 1⟩).vertices[0]?).map
        (fun v => normSq v.normal) = some 10 ∧ (10 : ℚ) ≠ 1 := by
  refine ⟨cosq_sinq_pyth, by norm_num, ?_, by norm_num⟩
  norm_num [Sphere.vertices_and_indices, sphere_vertex, cosq, sinq, normSq,
    List.range_succ, WHITE]

/-- C5 amended: for every center the generator sets each vertex normal to
the absolute (non-recentered) vertex position scaled by `1/r` — not the
recentered position the claim describes — so unit length is not
guaranteed in general; for a sphere centered at the origin every vertex
normal has unit length. -/
theorem sphere_normal_unit_at_origin (co si : ℚ → ℚ) (qpi r : ℚ) (S T : ℕ)
    (hpyth : ∀ x, co x ^ 2 + si x ^ 2 = 1) (hr : r ≠ 0) :
    (∀ (p : V3), ∀ v ∈ (Sphere.vertices_and_indices co si qpi ⟨p, r, S, T⟩).vertices,
      v.normal = ⟨v.pos.x * (1 / r), v.pos.y * (1 / r), v.pos.z * (1 / r)⟩) ∧
    (∀ v ∈ (Sphere.vertices_and_indices co si qpi ⟨⟨0, 0, 0⟩, r, S, T⟩).vertices,
      normSq v.normal = 1) := by
  constructor
  · intro p v hv
    simp only [Sphere.vertices_and_indices, List.mem_flatMap, List.mem_map,
      List.mem_range] at hv
    obtain ⟨i, _, j, _, rfl⟩ := hv
    rfl
  · intro v hv
    simp only [Sphere.vertices_and_indices, List.mem_flatMap, List.mem_map,
      List.mem_range] at hv
    obtain ⟨i, _, j, _, rfl⟩ := hv
    have h1 := hpyth (qpi / 2 - (i : ℚ) * (qpi / (T : ℚ)))
    have h2 := hpyth ((j : ℚ) * (2 * qpi / (S : ℚ)))
    simp only [sphere_vertex, normSq]
    set a := co (qpi / 2 - (i : ℚ) * (qpi / (T : ℚ))) with ha
    set b := si (qpi / 2 - (i : ℚ) * (qpi / (T : ℚ))) with hb
    set c := co ((j : ℚ) * (2 * qpi / (S : ℚ))) with hc
    set d := si ((j : ℚ) * (2 * qpi / (S : ℚ))) with hd
    field_simp
    linear_combination (r ^ 2 * a ^ 2) * h2 + r ^ 2 * h1

/-- Witness for `sphere_normal_unit_at_origin` at a concrete sphere. -/
theorem sphere_normal_unit_at_origin_witness :
    normSq (((Sphere.vertices_and_indices cosq sinq 2
        ⟨⟨0, 0, 0⟩, 1, 1, 1⟩).vertices.get ⟨0, by decide⟩).normal) = 1 :=
  (sphere_normal_unit_at_origin cosq sinq 2 1 1 1 cosq_sinq_pyth (by norm_num)).2 _
    (List.get_mem _ _ _)

/-- Modelled from the spec: `utility::make_point` (the `utility` module is
not under `src/`; only the `ring` call sites are).  Spec §4.1/§8: the ring
"produces alternating outer/inner vertex pairs" swept in steps of
`angle_step`, "first vertex at angle 0 on the outer radius"; so the call
produces the point on the circle of the given radius at the current sweep
angle with the given texture coordinate, and advances the mutable angle by
`angle_step`.  The `length` argument (always `1.`) scales the normal. -/
def make_point (co si : ℚ → ℚ) (angle radius angle_step length : ℚ)
    (tex_coord : V2) : Vertex × ℚ :=
  let pos : V3 := ⟨radius * co angle, radius * si angle, 0⟩
  ({ pos := pos
     colour := WHITE
     normal := ⟨length * co angle, length * si angle, 0⟩
     tex_coord := tex_coord },
   angle + angle_step)

/-- The `for _ in 0..=sector_count` loop of `ring`
(`src/src/shapes/mod.rs` lines 285–300): each iteration pushes an
outer-radius point (texture coordinate `(0,0)`) and an inner-radius point
(texture coordinate `(1,1)`), threading the mutable sweep angle. -/
def ring_points (co si : ℚ → ℚ) (inner_radius outer_radius angle_step length : ℚ) :
    ℕ → ℚ → List Vertex
  | 0, _ => []
  | n + 1, angle =>
    let o := make_point co si angle outer_radius angle_step length ⟨0, 0⟩
    let handle := make_point co si o.2 inner_radius angle_step length ⟨1, 1⟩
    o.1 :: handle.1 :: ring_points co si inner_radius outer_radius angle_step length n handle.2

/-- Generator `ring` (`src/src/shapes/mod.rs` lines 273–303; the copy in
`src/src/model/mod.rs` lines 201–236 is identical with `stack_count = 2`
spelled as a local): asserts `inner_radius <= outer_radius` (modelled as
the `none` branch), then sweeps `sector_count + 1` alternating
outer/inner point pairs with `angle_step = 180 / sector_count`, and pairs
them with `spherical_indices(sector_count, 2)`. -/
def ring (co si : ℚ → ℚ) (inner_radius outer_radius : ℚ) (sector_count : ℕ) :
    Option VerticesAndIndices :=
  if inner_radius ≤ outer_radius then
    some
      { vertices :=
          ring_points co si inner_radius outer_radius
            (180 / (sector_count : ℚ)) 1 (sector_count + 1) 0
        indices := spherical_indices sector_count 2 }
  else none

lemma ring_points_length (co si : ℚ → ℚ) (inner_radius outer_radius angle_step length : ℚ) :
    ∀ n angle,
      (ring_points co si inner_radius outer_radius angle_step length n angle).length
        = 2 * n := by
  intro n
  induction n with
  | zero => intro angle; rfl
  | succ k ih =>
    intro angle
    simp only [ring_points, List.length_cons, ih]
    ring

/-- C7: the ring generator fails (the source `assert!` panics) exactly when
`inner_radius > outer_radius`; the check happens inside the pure generator,
before any GPU call can occur, and for `inner_radius ≤ outer_radius`
(equality included) generation succeeds with `2·(sector_count+1)` vertices
whose first element lies on the unclamped outer radius at sweep angle 0
and whose second element lies on the unclamped inner radius. -/
theorem ring_parameter_check (co si : ℚ → ℚ) (inner_radius outer_radius : ℚ)
    (sector_count : ℕ) :
    ((ring co si inner_radius outer_radius sector_count).isSome = true
        ↔ inner_radius ≤ outer_radius) ∧
    (ring co si inner_radius outer_radius sector_count).map
        (fun vai => vai.vertices.length)
      = (if inner_radius ≤ outer_radius then some (2 * (sector_count + 1)) else none) ∧
    (ring co si inner_radius outer_radius sector_count).bind
        (fun vai => vai.vertices[0]?)
      = (if inner_radius ≤ outer_radius then
          some (make_point co si 0 outer_radius (180 / (sector_count : ℚ)) 1 ⟨0, 0⟩).1
         else none) ∧
    (ring co si inner_radius outer_radius sector_count).bind
        (fun vai => vai.vertices[1]?)
      = (if inner_radius ≤ outer_radius then
          some (make_point co si
            (make_point co si 0 outer_radius (180 / (sector_count : ℚ)) 1 ⟨0, 0⟩).2
            inner_radius (180 / (sector_count : ℚ)) 1 ⟨1, 1⟩).1
         else none) := by
  by_cases h : inner_radius ≤ outer_radius
  · refine ⟨by simp [ring, h], ?_, ?_, ?_⟩
    · simp [ring, h, ring_points_length]
    · simp [ring, h, ring_points]
    · simp [ring, h, ring_points]
  · exact ⟨by simp [ring, h], by simp [ring, h], by simp [ring, h], by simp [ring, h]⟩

/-- Constant `SQUARE_INDICES` (`crates/lambda_geometry/src/l2d/square.rs` line 14):
`[0, 1, 2, 2, 3, 0]`. -/
def SQUARE_INDICES : List ℕ := [0, 1, 2, 2, 3, 0]

/-- Function `square_from_vertices` (`crates/lambda_geometry/src/l2d/square.rs`
lines 88–115): cycles the four fixed texture corners over each 4-vertex
group (`vertices.len() / 4` repetitions) and builds white, zero-normal
vertices; the `tex_coords[index]` lookup panics (here: `none`) when the
vertex count is not a multiple of four. -/
def square_from_vertices (vertices : List V3) : Option (List Vertex) :=
  let tex_coord : List V2 := [⟨1, 0⟩, ⟨0, 0⟩, ⟨0, 1⟩, ⟨1, 1⟩]
  let tex_coords : List V2 := (List.range (vertices.length / 4)).flatMap (fun _ => tex_coord)
  vertices.enum.mapM (fun p =>
    (tex_coords[p.1]?).map (fun t =>
      { pos := p.2, colour := WHITE, normal := ⟨0, 0, 0⟩, tex_coord := t }))

/-- Generator `Square::vertices_and_indices`
(`crates/lambda_geometry/src/l2d/square.rs` lines 29–46): the four fixed
corners at `±0.5` built by `square_from_vertices`, every position offset
by the square's `position`, indexed by `SQUARE_INDICES`. -/
def Square.vertices_and_indices (position : V3) : Option VerticesAndIndices :=
  (square_from_vertices
      [⟨-(1/2), -(1/2), 1/2⟩, ⟨1/2, -(1/2), 1/2⟩, ⟨1/2, 1/2, 1/2⟩, ⟨-(1/2), 1/2, 1/2⟩]).map
    (fun vs =>
      { vertices := vs.map (fun v =>
          { v with pos := ⟨v.pos.x + position.x, v.pos.y + position.y, v.pos.z + position.z⟩ })
        indices := SQUARE_INDICES })

/-- Cross product of two 3-vectors. -/
def cross (u v : V3) : V3 :=
  ⟨u.y * v.z - u.z * v.y, u.z * v.x - u.x * v.z, u.x * v.y - u.y * v.x⟩

/-- Modelled from the spec: `utility::calculate_normals` (the `utility`
module of `lambda_engine/src/shapes` is not under `src/`).  Spec §4.1:
"per-face normal computed as the normalized cross product of two edge
vectors of that face, applied uniformly to all 4 vertices of the face".
For the engine's axis-aligned faces with unit edges the cross product is
already a unit vector, so the normalisation step (irrational in general)
is the identity on the data that reaches this function and is not
modelled separately. -/
def calculate_normals (face : List Vertex) : List Vertex :=
  match face with
  | [a, b, c, d] =>
    let e1 : V3 := ⟨b.pos.x - a.pos.x, b.pos.y - a.pos.y, b.pos.z - a.pos.z⟩
    let e2 : V3 := ⟨c.pos.x - a.pos.x, c.pos.y - a.pos.y, c.pos.z - a.pos.z⟩
    let n := cross e1 e2
    [{ a with normal := n }, { b with normal := n }, { c with normal := n },
     { d with normal := n }]
  | other => other

/-- Modelled from the spec: `utility::scale` (not under `src/`); spec §4.1:
"positions then scaled by radius". -/
def scale (face : List Vertex) (radius : ℚ) : List Vertex :=
  face.map (fun v =>
    { v with pos := ⟨v.pos.x * radius, v.pos.y * radius, v.pos.z * radius⟩ })

/-- Loop `vertices.chunks_mut(4).for_each(...)` from `Cube::vertices_and_indices`:
applies the per-face transformation to consecutive groups of four
vertices (a trailing shorter group, which never occurs for the 24-vertex
cube, is passed through as the final chunk). -/
def map_chunks4 (f : List Vertex → List Vertex) : List Vertex → List Vertex
  | a :: b :: c :: d :: rest => f [a, b, c, d] ++ map_chunks4 f rest
  | [] => []
  | rest => f rest

/-- Constant `CUBE_VERTICES` (`lambda_engine/src/shapes/l3d/cube.rs` lines 8–41):
six faces of four corners each at `±0.5`. -/
def CUBE_VERTICES : List V3 :=
  [⟨-(1/2), -(1/2), 1/2⟩, ⟨1/2, -(1/2), 1/2⟩, ⟨1/2, 1/2, 1/2⟩, ⟨-(1/2), 1/2, 1/2⟩,
   ⟨-(1/2), 1/2, -(1/2)⟩, ⟨1/2, 1/2, -(1/2)⟩, ⟨1/2, -(1/2), -(1/2)⟩, ⟨-(1/2), -(1/2), -(1/2)⟩,
   ⟨-(1/2), 1/2, 1/2⟩, ⟨-(1/2), 1/2, -(1/2)⟩, ⟨-(1/2), -(1/2), -(1/2)⟩, ⟨-(1/2), -(1/2), 1/2⟩,
   ⟨1/2, -(1/2), 1/2⟩, ⟨1/2, -(1/2), -(1/2)⟩, ⟨1/2, 1/2, -(1/2)⟩, ⟨1/2, 1/2, 1/2⟩,
   ⟨1/2, 1/2, 1/2⟩, ⟨1/2, 1/2, -(1/2)⟩, ⟨-(1/2), 1/2, -(1/2)⟩, ⟨-(1/2), 1/2, 1/2⟩,
   ⟨1/2, -(1/2), -(1/2)⟩, ⟨1/2, -(1/2), 1/2⟩, ⟨-(1/2), -(1/2), 1/2⟩, ⟨-(1/2), -(1/2), -(1/2)⟩]

/-- Constant `CUBE_INDICES` (`lambda_engine/src/shapes/l3d/cube.rs` lines 43–50):
two triangles per face over the 24 shared-face vertices. -/
def CUBE_INDICES : List ℕ :=
  [0, 1, 2, 2, 3, 0,
   4, 5, 6, 6, 7, 4,
   8, 9, 10, 8, 10, 11,
   12, 13, 14, 12, 14, 15,
   16, 17, 18, 16, 18, 19,
   20, 21, 22, 20, 22, 23]

/-- Generator `Cube::vertices_and_indices` (`lambda_engine/src/shapes/l3d/cube.rs`
lines 61–72): `square_from_vertices` over `CUBE_VERTICES`, then per
4-vertex face `calculate_normals` followed by `scale(radius)`, indexed by
`CUBE_INDICES`. -/
def Cube.vertices_and_indices (radius : ℚ) : Option VerticesAndIndices :=
  (square_from_vertices CUBE_VERTICES).map (fun vs =>
    { vertices := map_chunks4 (fun face => scale (calculate_normals face) radius) vs
      indices := CUBE_INDICES })

lemma square_vai_shape (position : V3) :
    (Square.vertices_and_indices position).map
        (fun vai => (vai.vertices.length, vai.indices)) = some (4, SQUARE_INDICES) := rfl

lemma cube_vai_shape (radius : ℚ) :
    (Cube.vertices_and_indices radius).map
        (fun vai => (vai.vertices.length, vai.indices)) = some (24, CUBE_INDICES) := rfl

lemma index_bound_helper (S T a b : ℕ) (ha : a ≤ T) (hb : b < S + 1) :
    a * (S + 1) + b < (T + 1) * (S + 1) := by
  calc a * (S + 1) + b < a * (S + 1) + (S + 1) := by omega
    _ = (a + 1) * (S + 1) := by ring
    _ ≤ (T + 1) * (S + 1) := Nat.mul_le_mul_right _ (by omega)

lemma spherical_indices_lt (S T : ℕ) :
    ∀ x ∈ spherical_indices S T, x < (T + 1) * (S + 1) := by
  intro x hx
  simp only [spherical_indices, List.mem_flatMap, List.mem_range, List.mem_append] at hx
  obtain ⟨i, hi, j, hj, hmem⟩ := hx
  have hij : i ≤ T ∧ i + 1 ≤ T := by omega
  rcases hmem with hm | hm
  · by_cases h0 : i = 0
    · simp [h0] at hm
    · rw [if_pos h0] at hm
      simp only [List.mem_cons, List.not_mem_nil, or_false] at hm
      rcases hm with rfl | rfl | rfl
      · exact index_bound_helper S T i j hij.1 (by omega)
      · have he : i * (S + 1) + S + 1 + j = (i + 1) * (S + 1) + j := by ring
        rw [he]
        exact index_bound_helper S T (i + 1) j hij.2 (by omega)
      · have he : i * (S + 1) + j + 1 = i * (S + 1) + (j + 1) := by ring
        rw [he]
        exact index_bound_helper S T i (j + 1) hij.1 (by omega)
  · by_cases hlast : i = T - 1
    · simp [hlast] at hm
    · rw [if_pos hlast] at hm
      simp only [List.mem_cons, List.not_mem_nil, or_false] at hm
      rcases hm with rfl | rfl | rfl
      · have he : i * (S + 1) + j + 1 = i * (S + 1) + (j + 1) := by ring
        rw [he]
        exact index_bound_helper S T i (j + 1) hij.1 (by omega)
      · have he : i * (S + 1) + S + 1 + j = (i + 1) * (S + 1) + j := by ring
        rw [he]
        exact index_bound_helper S T (i + 1) j hij.2 (by omega)
      · have he : i * (S + 1) + S + 1 + j + 1 = (i + 1) * (S + 1) + (j + 1) := by ring
        rw [he]
        exact index_bound_helper S T (i + 1) (j + 1) hij.2 (by omega)

/-- C8 amended: every index of the generated square, cube and sphere
geometries is strictly below the vertex count.  (The ring violates the
invariant: see the counterexample `ring_indices_exceed_vertex_count`.) -/
theorem generated_indices_in_bounds :
    (∀ position vai, Square.vertices_and_indices position = some vai →
      ∀ x ∈ vai.indices, x < vai.vertices.length) ∧
    (∀ radius vai, Cube.vertices_and_indices radius = some vai →
      ∀ x ∈ vai.indices, x < vai.vertices.length) ∧
    (∀ (co si : ℚ → ℚ) (qpi : ℚ) (s : Sphere),
      ∀ x ∈ (s.vertices_and_indices co si qpi).indices,
        x < (s.vertices_and_indices co si qpi).vertices.length) := by
  refine ⟨?_, ?_, ?_⟩
  · intro position vai h x hx
    have hs := square_vai_shape position
    rw [h] at hs
    simp only [Option.map_some', Option.some.injEq, Prod.mk.injEq] at hs
    rw [hs.2] at hx
    rw [hs.1]
    simp [SQUARE_INDICES] at hx
    omega
  · intro radius vai h x hx
    have hs := cube_vai_shape radius
    rw [h] at hs
    simp only [Option.map_some', Option.some.injEq, Prod.mk.injEq] at hs
    rw [hs.2] at hx
    rw [hs.1]
    simp [CUBE_INDICES] at hx
    omega
  · intro co si qpi s x hx
    have hb := spherical_indices_lt s.sector_count s.stack_count x hx
    have hrow : ∀ i, ((List.range (s.sector_count + 1)).map
        (fun j => sphere_vertex co si qpi s i j)).length = s.sector_count + 1 := by
      simp
    have hlen := flatMap_range_length _ _ hrow (s.stack_count + 1)
    unfold Sphere.vertices_and_indices
    rw [hlen]
    exact hb

/-- Witness for `generated_indices_in_bounds` at a concrete sphere. -/
theorem generated_indices_in_bounds_witness :
    (3 ∈ (Sphere.vertices_and_indices cosq sinq 2 ⟨⟨0, 0, 0⟩, 1, 2, 2⟩).indices) ∧
    3 < (Sphere.vertices_and_indices cosq sinq 2 ⟨⟨0, 0, 0⟩, 1, 2, 2⟩).vertices.length :=
  ⟨by decide, generated_indices_in_bounds.2.2 cosq sinq 2 ⟨⟨0, 0, 0⟩, 1, 2, 2⟩ 3 (by decide)⟩

/-- C8 counterexample: the ring pairs `2·(sector_count+1)` vertices with
`spherical_indices(sector_count, 2)`, whose entries reach row 2 of a
3-row sphere grid; already for `sector_count = 1` the index 4 appears
while only 4 vertices exist, so the invariant "every index < vertex
count" fails for the ring. -/
theorem ring_indices_exceed_vertex_count :
    (ring cosq sinq 0 1 1).map (fun vai => (vai.vertices.length, vai.indices))
        = some (4, [1, 2, 3, 2, 4, 3]) ∧
    ¬ (∀ x ∈ [1, 2, 3, 2, 4, 3], x < 4) := by
  constructor
  · have h01 : (0 : ℚ) ≤ 1 := by norm_num
    simp only [ring, if_pos h01, Option.map_some]
    rfl
  · decide

/-- The kinds of native device handles the shape lifecycle touches. -/
inductive HKind where
  | sampler
  | imageView
  | image
  | memory
  | buffer
  | pipeline
  | pipelineLayout
  | descriptorPool
  | descriptorSetLayout
deriving DecidableEq, Repr

/-- A recorded device call: creation or destruction of a handle of a given
kind with a given id (`free_memory` counts as destruction of a `memory`
handle). -/
inductive Ev where
  | create (kind : HKind) (id : ℕ)
  | destroy (kind : HKind) (id : ℕ)
deriving DecidableEq, Repr

/-- The `(kind, id)` pair of an event. -/
def evPair : Ev → HKind × ℕ
  | .create k i => (k, i)
  | .destroy k i => (k, i)

/-- Whether an event destroys a handle of the given kind. -/
def isDestroyOf (k : HKind) : Ev → Bool
  | .destroy k2 _ => k2 == k
  | _ => false

/-- Record `texture::Texture` as revealed by the fields `destroy` reads:
`sampler`, `image_view` and `image` (a `vk::Image` plus its memory). -/
structure ImageRec where
  image : ℕ
  memory : ℕ
deriving DecidableEq, Repr

structure Texture where
  sampler : ℕ
  image_view : ℕ
  image : ImageRec
deriving DecidableEq, Repr

/-- Record `Buffer` (`shapes/mod.rs`): a `vk::Buffer` and its `vk::DeviceMemory`. -/
structure Buffer where
  buffer : ℕ
  memory : ℕ
deriving DecidableEq, Repr

/-- Record `ModelBuffers` (`shapes/mod.rs`): the vertex and index buffer pair. -/
structure ModelBuffers where
  vertex : Buffer
  index : Buffer
deriving DecidableEq, Repr

/-- The pipeline fields `bind_index_and_vertex_buffers` / `recreate_drop`
read: `features.pipeline` and `features.layout`. -/
structure PipelineFeatures where
  pipeline : ℕ
  layout : ℕ
deriving DecidableEq, Repr

/-- The descriptor fields `destroy` / `recreate_drop` /
`bind_index_and_vertex_buffers` read. -/
structure DescriptorSet where
  descriptor_pool : ℕ
  descriptor_set_layout : ℕ
  descriptor_sets : List ℕ
  uniform_buffers : List Buffer
deriving DecidableEq, Repr

structure GraphicsPipeline where
  features : PipelineFeatures
  descriptor_set : DescriptorSet
deriving DecidableEq, Repr

/-- Record `Shape<T>` (`lambda_engine/src/shapes/mod.rs` lines 35–50): texture
bytes, `indexed` flag, geometry, and the three optional GPU-resource
fields filled in by `construct`.  The primitive-specific `properties`
field and the topology/cull-mode configuration do not participate in the
lifecycle operations modelled here and are omitted. -/
structure Shape where
  texture : List ℕ
  indexed : Bool
  vertices_and_indices : VerticesAndIndices
  texture_buffer : Option Texture
  graphics_pipeline : Option GraphicsPipeline
  buffers : Option ModelBuffers
deriving DecidableEq, Repr

/-- Modelled from the spec: `texture::Texture::new` (the `texture` module
is not under `src/`).  Spec §6: the texture collaborator "produces a
sampled device texture (image, view, sampler)"; the handles are exactly
the ones `destroy` later releases: sampler, image view, image and the
image's memory.  Ids are drawn from the fresh counter `f`; returns the
texture, its creation events and the next counter. -/
def Texture.new (f : ℕ) : Texture × List Ev × ℕ :=
  (⟨f, f + 1, ⟨f + 2, f + 3⟩⟩,
   [.create .sampler f, .create .imageView (f + 1), .create .image (f + 2),
    .create .memory (f + 3)],
   f + 4)

/-- Modelled from the spec: `utility::create_vertex_index_buffer` (the
`utility` module is not under `src/`).  Spec §4.3 step 2: data is uploaded
"into a device-local buffer via a staging transfer"; the call returns the
device-local buffer and its memory.  The staging buffer is created and
freed inside the call and is not modelled. -/
def create_vertex_index_buffer (f : ℕ) : Buffer × List Ev × ℕ :=
  (⟨f, f + 1⟩, [.create .buffer f, .create .memory (f + 1)], f + 2)

/-- Modelled from the spec: `GraphicsPipeline::new` (the `pipeline` module
is not under `src/`).  Spec §4.3 step 3 creates the graphics pipeline; the
fields read by `destroy` and `recreate_drop` reveal the rest: a
descriptor-set layout, a pipeline layout, the pipeline, a descriptor
pool, and one uniform buffer (with memory) per swapchain image
(`numImages`).  Descriptor sets are allocated from the pool and are freed
with it, so they carry ids but no separate create events. -/
def GraphicsPipeline.new (numImages f : ℕ) : GraphicsPipeline × List Ev × ℕ :=
  (⟨⟨f + 2, f + 1⟩,
    ⟨f + 3, f,
     (List.range numImages).map (fun i => f + 4 + 2 * numImages + i),
     (List.range numImages).map (fun i => ⟨f + 4 + 2 * i, f + 4 + 2 * i + 1⟩)⟩⟩,
   [.create .descriptorSetLayout f, .create .pipelineLayout (f + 1),
    .create .pipeline (f + 2), .create .descriptorPool (f + 3)]
     ++ (List.range numImages).flatMap (fun i =>
          [.create .buffer (f + 4 + 2 * i), .create .memory (f + 4 + 2 * i + 1)]),
   f + 4 + 2 * numImages + numImages)

/-- Operation `Object::construct` (`lambda_engine/src/shapes/mod.rs` lines 124–145)
with the fresh-id counter starting at 0: first `texture()` (lines 74–82,
which creates a device texture only when the texture byte buffer is
non-empty), then `vertices_and_indices()` (recomputes the geometry
deterministically; modelled as leaving the stored geometry unchanged),
then `VerticesAndIndices::create_buffers` (lines 367–396, which creates
the vertex buffer and — unconditionally — the index buffer), then
`graphics_pipeline` (lines 104–118), which calls
`self.texture_buffer.unwrap()`: when no texture was created this panics,
modelled as `none`.  `numImages` is the swapchain image count the
pipeline's per-image descriptor resources are sized by. -/
def Object.construct (st : Shape) (numImages : ℕ) : Option (Shape × List Ev) :=
  let texR := if st.texture = [] then none else some (Texture.new 0)
  let tb : Option Texture := texR.map (fun r => r.1)
  let evT : List Ev := (texR.map (fun r => r.2.1)).getD []
  let f1 : ℕ := (texR.map (fun r => r.2.2)).getD 0
  let vres := create_vertex_index_buffer f1
  let ires := create_vertex_index_buffer vres.2.2
  match tb with
  | none => none
  | some t =>
    let pres := GraphicsPipeline.new numImages ires.2.2
    some ({ st with
              texture_buffer := some t
              buffers := some ⟨vres.1, ires.1⟩
              graphics_pipeline := some pres.1 },
          (evT ++ vres.2.1 ++ ires.2.1) ++ pres.2.1)

/-- Operation `private::Object::destroy` (`lambda_engine/src/shapes/mod.rs` lines
193–234): unwraps the texture, graphics pipeline and buffers (a missing
one panics, modelled as `none`) and then releases, in source order:
sampler, image view, image, image memory, descriptor-set layout, vertex
buffer, vertex memory, index buffer, index memory. -/
def Object.destroy (st : Shape) : Option (List Ev) :=
  match st.texture_buffer, st.graphics_pipeline, st.buffers with
  | some t, some gp, some b =>
    some [.destroy .sampler t.sampler,
          .destroy .imageView t.image_view,
          .destroy .image t.image.image,
          .destroy .memory t.image.memory,
          .destroy .descriptorSetLayout gp.descriptor_set.descriptor_set_layout,
          .destroy .buffer b.vertex.buffer,
          .destroy .memory b.vertex.memory,
          .destroy .buffer b.index.buffer,
          .destroy .memory b.index.memory]
  | _, _, _ => none

/-- Operation `private::Object::recreate_drop` (`lambda_engine/src/shapes/mod.rs`
lines 326–351): unwraps the graphics pipeline and releases the pipeline,
the pipeline layout, the descriptor pool, and for
`i in 0..swap_chain.images.len()` the uniform buffer and memory at `i`
(the indexing panics — `none` — when there are fewer uniform buffers than
swapchain images). -/
def Object.recreate_drop (st : Shape) (numImages : ℕ) : Option (List Ev) :=
  match st.graphics_pipeline with
  | none => none
  | some gp =>
    if numImages ≤ gp.descriptor_set.uniform_buffers.length then
      some ([.destroy .pipeline gp.features.pipeline,
             .destroy .pipelineLayout gp.features.layout,
             .destroy .descriptorPool gp.descriptor_set.descriptor_pool]
        ++ (gp.descriptor_set.uniform_buffers.take numImages).flatMap (fun ub =>
             [.destroy .buffer ub.buffer, .destroy .memory ub.memory]))
    else none

/-- The commands `bind_index_and_vertex_buffers` records. -/
inductive IndexType where
  | uint16
  | uint32
deriving DecidableEq, Repr

inductive Cmd where
  | bindPipeline (pipeline : ℕ)
  | bindDescriptorSets (layout descriptor_set : ℕ)
  | bindVertexBuffers (first_binding buffer : ℕ) (offsets : List ℕ)
  | draw (vertex_count instance_count first_vertex first_instance : ℕ)
  | bindIndexBuffer (buffer offset : ℕ) (ty : IndexType)
  | drawIndexed (index_count instance_count first_index vertex_offset first_instance : ℕ)
deriving DecidableEq, Repr

/-- Whether a command is an indexed draw. -/
def isDrawIndexed : Cmd → Bool
  | .drawIndexed _ _ _ _ _ => true
  | _ => false

/-- Operation `private::Object::bind_index_and_vertex_buffers`
(`lambda_engine/src/shapes/mod.rs` lines 239–303; the default method of
`ObjectBuilder` in `src/src/shapes/mod.rs` lines 61–120 is identical):
binds the pipeline, the descriptor set at `index` (the
`descriptor_sets[index]` lookup panics — `none` — out of range), the
vertex buffer at first binding 0 with the given offsets, issues
`cmd_draw` with the vertex count, and when `indexed` additionally binds
the index buffer at offset 0 with `UINT16` and issues `cmd_draw_indexed`
with the index count. -/
def Object.bind_index_and_vertex_buffers (st : Shape) (offsets : List ℕ)
    (index : ℕ) : Option (List Cmd) :=
  match st.graphics_pipeline, st.buffers with
  | some gp, some b =>
    match gp.descriptor_set.descriptor_sets[index]? with
    | none => none
    | some ds =>
      some ([.bindPipeline gp.features.pipeline,
             .bindDescriptorSets gp.features.layout ds,
             .bindVertexBuffers 0 b.vertex.buffer offsets,
             .draw st.vertices_and_indices.vertices.length 1 0 0]
        ++ (if st.indexed then
              [.bindIndexBuffer b.index.buffer 0 .uint16,
               .drawIndexed st.vertices_and_indices.indices.length 1 0 0 0]
            else []))
  | _, _ => none

/-- A `Shape` whose referenced texture resource was unavailable: the
builder's `texture` setter leaves the byte buffer empty when the file
cannot be opened, so the built description carries `texture = []`. -/
def untexturedShape : Shape := ⟨[], true, ⟨[], []⟩, none, none, none⟩

/-- C1: the spec promises that a `Shape` with an unavailable texture still
constructs, falling back to untextured rendering, and `texture()` (lines
74–82) indeed tolerates the empty byte buffer — but `graphics_pipeline`
(lines 104–118) immediately calls `self.texture_buffer.unwrap()`, which
panics on `None`, so `construct` of an untextured `Shape` never
completes. -/
theorem construct_panics_on_missing_texture :
    untexturedShape.texture = [] ∧ Object.construct untexturedShape 2 = none :=
  ⟨rfl, rfl⟩

/-- C10: `destroy` begins with `self.object_texture()`, which unwraps the
absent texture of an untextured `Shape` and panics; `destroy` completes
only when a texture (together with the pipeline and buffers it also
unwraps) is present. -/
theorem destroy_requires_texture :
    (∀ st : Shape, st.texture_buffer = none → Object.destroy st = none) ∧
    (∀ (st : Shape) (evs : List Ev), Object.destroy st = some evs →
      st.texture_buffer.isSome = true) := by
  constructor
  · intro st h
    rcases st with ⟨tex, ind, vai, tb, gp, b⟩
    simp only at h
    subst h
    cases gp <;> cases b <;> rfl
  · intro st evs h
    rcases st with ⟨tex, ind, vai, tb, gp, b⟩
    cases tb with
    | none => cases gp <;> cases b <;> simp [Object.destroy] at h
    | some t => rfl

/-- Witness for `destroy_requires_texture`. -/
theorem destroy_requires_texture_witness :
    untexturedShape.texture_buffer = none ∧ Object.destroy untexturedShape = none :=
  ⟨rfl, destroy_requires_texture.1 untexturedShape rfl⟩

/-- The texture a build starting from fresh id 0 creates. -/
def exampleTexture : Texture := ⟨0, 1, ⟨2, 3⟩⟩

/-- The vertex/index buffer pair a build starting from fresh id 0 creates. -/
def exampleBuffers : ModelBuffers := ⟨⟨4, 5⟩, ⟨6, 7⟩⟩

/-- The pipeline a build with two swapchain images creates from fresh id 8. -/
def examplePipeline : GraphicsPipeline := ⟨⟨10, 9⟩, ⟨11, 8, [16, 17], [⟨12, 13⟩, ⟨14, 15⟩]⟩⟩

/-- An unbuilt textured `Shape` description. -/
def texturedShape : Shape := ⟨[7], true, ⟨[], []⟩, none, none, none⟩

/-- Shape `texturedShape` after `construct` with two swapchain images. -/
def builtShape : Shape :=
  ⟨[7], true, ⟨[], []⟩, some exampleTexture, some examplePipeline, some exampleBuffers⟩

/-- The creation events of `Object.construct texturedShape 2`. -/
def exampleCreates : List Ev :=
  [.create .sampler 0, .create .imageView 1, .create .image 2, .create .memory 3,
   .create .buffer 4, .create .memory 5, .create .buffer 6, .create .memory 7,
   .create .descriptorSetLayout 8, .create .pipelineLayout 9, .create .pipeline 10,
   .create .descriptorPool 11,
   .create .buffer 12, .create .memory 13, .create .buffer 14, .create .memory 15]

/-- The destruction events of `Object.destroy builtShape`. -/
def exampleDestroys : List Ev :=
  [.destroy .sampler 0, .destroy .imageView 1, .destroy .image 2, .destroy .memory 3,
   .destroy .descriptorSetLayout 8,
   .destroy .buffer 4, .destroy .memory 5, .destroy .buffer 6, .destroy .memory 7]

lemma construct_textured_example :
    Object.construct texturedShape 2 = some (builtShape, exampleCreates) := rfl

/-- Whether an event destroys one of the texture objects
(sampler, image view, image). -/
def isTextureDestroy (e : Ev) : Bool :=
  isDestroyOf .sampler e || isDestroyOf .imageView e || isDestroyOf .image e

/-- The release order the spec claims: every vertex/index-buffer
destruction comes before every texture-object destruction. -/
def buffers_destroyed_before_textures (L : List Ev) : Prop :=
  ∀ i j : Fin L.length,
    isDestroyOf .buffer (L.get i) = true → isTextureDestroy (L.get j) = true →
      (i : ℕ) < (j : ℕ)

/-- C2 counterexample: `destroy` on a built `Shape` releases the texture
objects first (the very first event destroys the sampler) and the
vertex/index buffers only afterwards, so the claimed buffer→texture
order is violated. -/
theorem destroy_order_counterexample :
    Object.destroy builtShape = some exampleDestroys ∧
    ¬ buffers_destroyed_before_textures exampleDestroys := by
  refine ⟨rfl, ?_⟩
  intro horder
  have := horder ⟨5, by decide⟩ ⟨0, by decide⟩ (by decide) (by decide)
  simp at this

/-- C2 amended: `destroy` releases, in order, the texture objects
(sampler, image view, image, image memory), then the descriptor-set
layout, then the vertex buffer and its memory, then the index buffer and
its memory; the pipeline handle itself is not among the released
handles (it is released by `recreate_drop`). -/
theorem destroy_release_order (tex : List ℕ) (ind : Bool) (vai : VerticesAndIndices)
    (t : Texture) (gp : GraphicsPipeline) (b : ModelBuffers) :
    Object.destroy ⟨tex, ind, vai, some t, some gp, some b⟩ =
      some [.destroy .sampler t.sampler,
            .destroy .imageView t.image_view,
            .destroy .image t.image.image,
            .destroy .memory t.image.memory,
            .destroy .descriptorSetLayout gp.descriptor_set.descriptor_set_layout,
            .destroy .buffer b.vertex.buffer,
            .destroy .memory b.vertex.memory,
            .destroy .buffer b.index.buffer,
            .destroy .memory b.index.memory] ∧
    ([.destroy .sampler t.sampler,
      .destroy .imageView t.image_view,
      .destroy .image t.image.image,
      .destroy .memory t.image.memory,
      .destroy .descriptorSetLayout gp.descriptor_set.descriptor_set_layout,
      .destroy .buffer b.vertex.buffer,
      .destroy .memory b.vertex.memory,
      .destroy .buffer b.index.buffer,
      .destroy .memory b.index.memory] : List Ev).all
        (fun e => !(isDestroyOf .pipeline e)) = true :=
  ⟨rfl, rfl⟩

/-- C9: per-object draw recording binds the pipeline, the descriptor set
at the current image index, and the vertex buffer at first binding 0 with
offset 0, then issues the non-indexed draw with
`vertex_count = vertices.length`; when `indexed` is set it additionally
binds the index buffer with 16-bit indices and issues the indexed draw
with `index_count = indices.length`. -/
theorem bind_and_draw_sequence (tex : List ℕ) (ind : Bool) (vai : VerticesAndIndices)
    (tb : Option Texture) (gp : GraphicsPipeline) (b : ModelBuffers) (index ds : ℕ)
    (h : gp.descriptor_set.descriptor_sets[index]? = some ds) :
    Object.bind_index_and_vertex_buffers ⟨tex, ind, vai, tb, some gp, some b⟩ [0] index =
      some ([.bindPipeline gp.features.pipeline,
             .bindDescriptorSets gp.features.layout ds,
             .bindVertexBuffers 0 b.vertex.buffer [0],
             .draw vai.vertices.length 1 0 0]
        ++ (if ind then
              [.bindIndexBuffer b.index.buffer 0 .uint16,
               .drawIndexed vai.indices.length 1 0 0 0]
            else [])) := by
  simp [Object.bind_index_and_vertex_buffers, h]

/-- Witness for `bind_and_draw_sequence` on the concrete built shape. -/
theorem bind_and_draw_sequence_witness :
    Object.bind_index_and_vertex_buffers builtShape [0] 1 =
      some [.bindPipeline 10, .bindDescriptorSets 9 17, .bindVertexBuffers 0 4 [0],
            .draw 0 1 0 0, .bindIndexBuffer 6 0 .uint16, .drawIndexed 0 1 0 0 0] := by
  have h := bind_and_draw_sequence [7] true ⟨[], []⟩ (some exampleTexture)
    examplePipeline exampleBuffers 1 17 rfl
  simpa [examplePipeline, exampleBuffers] using h

/-- An unbuilt textured `Shape` with the `indexed` flag unset. -/
def unindexedShape : Shape := ⟨[7], false, ⟨[], []⟩, none, none, none⟩

/-- Shape `unindexedShape` after `construct` with two swapchain images. -/
def builtUnindexedShape : Shape :=
  ⟨[7], false, ⟨[], []⟩, some exampleTexture, some examplePipeline, some exampleBuffers⟩

/-- C4 counterexample: building a `Shape` whose `indexed` flag is unset
still creates an index buffer — `create_buffers` calls
`create_vertex_index_buffer` for the index data unconditionally, and the
creation event of the built shape's index buffer is among the build's
events. -/
theorem index_buffer_created_when_unindexed :
    unindexedShape.indexed = false ∧
    Object.construct unindexedShape 2 = some (builtUnindexedShape, exampleCreates) ∧
    Ev.create .buffer exampleBuffers.index.buffer ∈ exampleCreates :=
  ⟨rfl, rfl, by decide⟩

lemma construct_eq (st : Shape) (n : ℕ) (h : st.texture ≠ []) :
    Object.construct st n =
      some ({ st with
                texture_buffer := some ⟨0, 1, ⟨2, 3⟩⟩
                buffers := some ⟨⟨4, 5⟩, ⟨6, 7⟩⟩
                graphics_pipeline := some
                  ⟨⟨10, 9⟩, ⟨11, 8,
                    (List.range n).map (fun i => 12 + 2 * n + i),
                    (List.range n).map (fun i => ⟨12 + 2 * i, 12 + 2 * i + 1⟩)⟩⟩ },
            [.create .sampler 0, .create .imageView 1, .create .image 2, .create .memory 3,
             .create .buffer 4, .create .memory 5, .create .buffer 6, .create .memory 7,
             .create .descriptorSetLayout 8, .create .pipelineLayout 9, .create .pipeline 10,
             .create .descriptorPool 11]
              ++ (List.range n).flatMap (fun i =>
                   [.create .buffer (12 + 2 * i), .create .memory (12 + 2 * i + 1)])) := by
  simp [Object.construct, Texture.new, create_vertex_index_buffer, GraphicsPipeline.new, h]

/-- C4 amended: `build` creates the index buffer unconditionally (its
creation event is always among the build events, `indexed` flag or not);
the `indexed` flag only controls the draw path — when it is unset the
recorded draw commands contain no indexed draw. -/
theorem index_buffer_unconditional_and_draw_path (st : Shape) (n : ℕ)
    (h : st.texture ≠ []) (st2 : Shape) (evs : List Ev)
    (hc : Object.construct st n = some (st2, evs)) :
    (∀ b, st2.buffers = some b → Ev.create .buffer b.index.buffer ∈ evs) ∧
    (st.indexed = false → ∀ offsets idx cmds,
      Object.bind_index_and_vertex_buffers st2 offsets idx = some cmds →
      ∀ c ∈ cmds, isDrawIndexed c = false) := by
  rw [construct_eq st n h] at hc
  injection hc with hc2
  injection hc2 with h1 h2
  subst h1
  subst h2
  constructor
  · intro b hb
    have hb2 : (⟨⟨4, 5⟩, ⟨6, 7⟩⟩ : ModelBuffers) = b := Option.some.inj hb
    subst hb2
    exact List.mem_append.2 (Or.inl (by decide))
  · intro hind offsets idx cmds hbi c hcmem
    simp only [Object.bind_index_and_vertex_buffers] at hbi
    cases hds : ((List.range n).map (fun i => 12 + 2 * n + i))[idx]? with
    | none =>
      rw [hds] at hbi
      cases hbi
    | some ds =>
      rw [hds] at hbi
      rw [show ({ st with
            texture_buffer := some ⟨0, 1, ⟨2, 3⟩⟩
            buffers := some ⟨⟨4, 5⟩, ⟨6, 7⟩⟩
            graphics_pipeline := some
              ⟨⟨10, 9⟩, ⟨11, 8,
                (List.range n).map (fun i => 12 + 2 * n + i),
                (List.range n).map (fun i => ⟨12 + 2 * i, 12 + 2 * i + 1⟩)⟩⟩} : Shape).indexed
          = st.indexed from rfl, hind] at hbi
      simp only [Bool.false_eq_true, if_false, List.append_nil] at hbi
      injection hbi with hb3
      subst hb3
      simp only [List.mem_cons, List.not_mem_nil, or_false] at hcmem
      rcases hcmem with rfl | rfl | rfl | rfl <;> rfl

/-- Witness for `index_buffer_unconditional_and_draw_path`. -/
theorem index_buffer_unconditional_and_draw_path_witness :
    Ev.create .buffer exampleBuffers.index.buffer ∈ exampleCreates :=
  (index_buffer_unconditional_and_draw_path unindexedShape 2 (by decide)
      builtUnindexedShape exampleCreates rfl).1
    exampleBuffers rfl


/-- The destruction events of `Object.recreate_drop builtShape 2`. -/
def exampleRecreates : List Ev :=
  [.destroy .pipeline 10, .destroy .pipelineLayout 9, .destroy .descriptorPool 11,
   .destroy .buffer 12, .destroy .memory 13, .destroy .buffer 14, .destroy .memory 15]

lemma recreate_drop_built_example :
    Object.recreate_drop builtShape 2 = some exampleRecreates := rfl

/-- C3 counterexample: `build` creates a pipeline handle, but `destroy` of
the built shape releases no pipeline handle at all — `destroy(build(s))`
alone leaks the pipeline (along with the pipeline layout, descriptor pool
and uniform buffers, which only `recreate_drop` releases). -/
theorem destroy_leaks_pipeline :
    Object.construct texturedShape 2 = some (builtShape, exampleCreates) ∧
    Ev.create .pipeline 10 ∈ exampleCreates ∧
    Object.destroy builtShape = some exampleDestroys ∧
    exampleDestroys.all (fun e => !(isDestroyOf .pipeline e)) = true :=
  ⟨rfl, by decide, rfl, by decide⟩

lemma range_flatMap_pair_eq (a : ℕ) :
    ∀ n, (List.range n).flatMap (fun i => [a + 2 * i, a + 2 * i + 1])
      = (List.range (2 * n)).map (fun k => a + k) := by
  intro n
  induction n with
  | zero => simp
  | succ k ih =>
    rw [List.range_succ, List.flatMap_append, ih]
    have h2 : 2 * (k + 1) = (2 * k + 1) + 1 := by ring
    rw [h2, List.range_succ, List.range_succ, List.map_append, List.map_append]
    simp [List.append_assoc, Nat.add_assoc, Nat.mul_comm]

/-- C3 amended: `destroy` releases the texture objects, the descriptor-set
layout and the vertex/index buffers, while the pipeline, pipeline layout,
descriptor pool and per-image uniform buffers acquired by `build` are
released only by `recreate_drop`; `destroy` followed by `recreate_drop`
releases exactly the handles `build` acquired — a permutation of the
creation events, with no handle destroyed twice. -/
theorem destroy_recreate_balance (st : Shape) (n : ℕ) (h : st.texture ≠ [])
    (st2 : Shape) (evs : List Ev) (hc : Object.construct st n = some (st2, evs)) :
    (Object.destroy st2).isSome = true ∧
    (Object.recreate_drop st2 n).isSome = true ∧
    List.Perm
      (((Object.destroy st2).getD [] ++ (Object.recreate_drop st2 n).getD []).map evPair)
      (evs.map evPair) ∧
    (((Object.destroy st2).getD [] ++ (Object.recreate_drop st2 n).getD []).map evPair).Nodup := by
  rw [construct_eq st n h] at hc
  injection hc with hc2
  injection hc2 with h1 h2
  subst h1
  subst h2
  have hD : Object.destroy { st with
      texture_buffer := some ⟨0, 1, ⟨2, 3⟩⟩
      buffers := some ⟨⟨4, 5⟩, ⟨6, 7⟩⟩
      graphics_pipeline := some
        ⟨⟨10, 9⟩, ⟨11, 8,
          (List.range n).map (fun i => 12 + 2 * n + i),
          (List.range n).map (fun i => ⟨12 + 2 * i, 12 + 2 * i + 1⟩)⟩⟩ } =
      some [.destroy .sampler 0, .destroy .imageView 1, .destroy .image 2,
            .destroy .memory 3, .destroy .descriptorSetLayout 8,
            .destroy .buffer 4, .destroy .memory 5,
            .destroy .buffer 6, .destroy .memory 7] := rfl
  have hR : Object.recreate_drop { st with
      texture_buffer := some ⟨0, 1, ⟨2, 3⟩⟩
      buffers := some ⟨⟨4, 5⟩, ⟨6, 7⟩⟩
      graphics_pipeline := some
        ⟨⟨10, 9⟩, ⟨11, 8,
          (List.range n).map (fun i => 12 + 2 * n + i),
          (List.range n).map (fun i => ⟨12 + 2 * i, 12 + 2 * i + 1⟩)⟩⟩ } n =
      some ([.destroy .pipeline 10, .destroy .pipelineLayout 9, .destroy .descriptorPool 11]
        ++ (List.range n).flatMap (fun i =>
             [Ev.destroy .buffer (12 + 2 * i), Ev.destroy .memory (12 + 2 * i + 1)])) := by
    simp only [Object.recreate_drop]
    rw [if_pos (by simp)]
    congr 1
    congr 1
    rw [List.take_of_length_le (by simp), List.flatMap_map]
  rw [hD, hR]
  simp only [Option.getD_some, Option.isSome_some, true_and]
  have hUmap : ((List.range n).flatMap (fun i =>
        [Ev.destroy .buffer (12 + 2 * i), Ev.destroy .memory (12 + 2 * i + 1)])).map evPair
      = (List.range n).flatMap (fun i =>
          [((HKind.buffer, 12 + 2 * i) : HKind × ℕ), (HKind.memory, 12 + 2 * i + 1)]) := by
    rw [List.map_flatMap]
    rfl
  have hCmap : ((List.range n).flatMap (fun i =>
        [Ev.create .buffer (12 + 2 * i), Ev.create .memory (12 + 2 * i + 1)])).map evPair
      = (List.range n).flatMap (fun i =>
          [((HKind.buffer, 12 + 2 * i) : HKind × ℕ), (HKind.memory, 12 + 2 * i + 1)]) := by
    rw [List.map_flatMap]
    rfl
  simp only [List.map_append, hUmap, hCmap, List.map_cons, List.map_nil, evPair]
  constructor
  · rw [← List.append_assoc]
    exact List.Perm.append_right _ (by decide)
  · rw [← List.append_assoc]
    apply List.Nodup.append
    · decide
    · apply List.Nodup.of_map Prod.snd
      have hsnd : ((List.range n).flatMap (fun i =>
            [((HKind.buffer, 12 + 2 * i) : HKind × ℕ), (HKind.memory, 12 + 2 * i + 1)])).map
              Prod.snd
          = (List.range n).flatMap (fun i => [12 + 2 * i, 12 + 2 * i + 1]) := by
        rw [List.map_flatMap]
        rfl
      rw [hsnd, range_flatMap_pair_eq 12 n]
      exact List.Nodup.map (fun a b hab => by omega) (List.nodup_range _)
    · intro p hp hpU
      simp only [List.mem_flatMap, List.mem_range, List.mem_cons, List.not_mem_nil,
        or_false] at hpU
      obtain ⟨i, _, hcase⟩ := hpU
      simp only [List.mem_append, List.mem_cons, List.not_mem_nil, or_false] at hp
      rcases hp with (rfl | rfl | rfl | rfl | rfl | rfl | rfl | rfl | rfl) | (rfl | rfl | rfl) <;>
        rcases hcase with h5 | h5 <;> simp [Prod.ext_iff] at h5 <;> omega

/-- Witness for `destroy_recreate_balance` on the concrete built shape. -/
theorem destroy_recreate_balance_witness :
    List.Perm
      (((Object.destroy builtShape).getD []
          ++ (Object.recreate_drop builtShape 2).getD []).map evPair)
      (exampleCreates.map evPair) :=
  (destroy_recreate_balance texturedShape 2 (by decide) builtShape exampleCreates rfl).2.2.1
